import Mathlib

/-!
Verification of the Kafka client transport (`src/kafka/client.rs`).

The Rust source is shallowly embedded: byte buffers (`BytesMut`) become
`List Nat` (each element a byte value below 256), machine integers become
`Int` with explicit wrapping where the source wraps, `HashMap` becomes an
association list with the map's insert/remove semantics, `HashSet` becomes
a duplicate-free list, and a Rust panic (`unwrap` on `None`, `todo!`)
becomes a distinguished `panicked` outcome, since a panic aborts the
process instead of returning.  Functions of the external crates
(`kafka_protocol`, `tokio_util`, `tokio_tower`) that the client calls are
modelled from those libraries; request/response body serialization is
treated as opaque bytes, with the decode side recording the version
argument it was invoked with.
-/

/-- Two's-complement wrap into the `i32` range, modelling Rust `i32`
arithmetic (`AtomicI32::fetch_add` wraps). -/
def wrap32 (i : Int) : Int := (i + 2 ^ 31) % 2 ^ 32 - 2 ^ 31

/-- Big-endian bytes of an `i16` value (two's complement). -/
def encInt16 (i : Int) : List Nat :=
  [((i % 2 ^ 16).toNat / 256) % 256, (i % 2 ^ 16).toNat % 256]

/-- Big-endian bytes of an `i32` value (two's complement). -/
def encInt32 (i : Int) : List Nat :=
  [((i % 2 ^ 32).toNat / 2 ^ 24) % 256, ((i % 2 ^ 32).toNat / 2 ^ 16) % 256,
   ((i % 2 ^ 32).toNat / 2 ^ 8) % 256, (i % 2 ^ 32).toNat % 256]

/-- Big-endian bytes of a `u32` value. -/
def encU32 (n : Nat) : List Nat :=
  [(n / 2 ^ 24) % 256, (n / 2 ^ 16) % 256, (n / 2 ^ 8) % 256, n % 256]

/-- Read a big-endian `u32` from the first four bytes of a buffer. -/
def readU32 : List Nat → Nat
  | a :: b :: c :: d :: _ => ((a * 256 + b) * 256 + c) * 256 + d
  | _ => 0

/-- Reinterpret a `u32` bit pattern as a signed `i32`. -/
def toInt32 (n : Nat) : Int := if n < 2 ^ 31 then (n : Int) else (n : Int) - 2 ^ 32

/-- Modelled from the `kafka_protocol` library: unsigned-varint decoding
(7 value bits per byte, high bit marks continuation). -/
def decodeUVarintAux : List Nat → Nat → Nat → Option (Nat × List Nat)
  | [], _, _ => none
  | b :: rest, shift, acc =>
    if b < 128 then some (acc + b * 2 ^ shift, rest)
    else decodeUVarintAux rest (shift + 7) (acc + (b - 128) * 2 ^ shift)

/-- Decode one unsigned varint from the front of a buffer. -/
def decodeUVarint (bs : List Nat) : Option (Nat × List Nat) :=
  decodeUVarintAux bs 0 0

/-- Modelled from the `kafka_protocol` library: skip a run of `n` tagged
fields, each a (tag varint, size varint, `size` content bytes) triple. -/
def skipTaggedFields : Nat → List Nat → Option (List Nat)
  | 0, bs => some bs
  | n + 1, bs =>
    match decodeUVarint bs with
    | none => none
    | some (_, bs1) =>
      match decodeUVarint bs1 with
      | none => none
      | some (size, bs2) =>
        if bs2.length < size then none
        else skipTaggedFields n (bs2.drop size)

/-- `kafka_protocol::messages::RequestHeader`: API key, API version,
correlation id and optional client id (client id modelled as raw bytes). -/
structure RequestHeader where
  request_api_key : Int
  request_api_version : Int
  correlation_id : Int
  client_id : Option (List Nat)
deriving DecidableEq, Repr

/-- `kafka_protocol::messages::ResponseHeader`: just the correlation id. -/
structure ResponseHeader where
  correlation_id : Int
deriving DecidableEq, Repr

/-- Modelled from the `kafka_protocol` library: a nullable byte string is a
length-prefixed run of bytes, with length `-1` marking null. -/
def encNullableBytes : Option (List Nat) → List Nat
  | none => encInt16 (-1)
  | some bs => encInt16 (bs.length : Int) ++ bs

/-- Modelled from the `kafka_protocol` library: `RequestHeader::encode` at a
given header version (v0: key, version, id; v1 adds client id; v2 adds an
empty tagged-field section). -/
def RequestHeader.encode (h : RequestHeader) (hv : Int) : List Nat :=
  encInt16 h.request_api_key ++ encInt16 h.request_api_version ++
    encInt32 h.correlation_id ++
    (if 1 ≤ hv then encNullableBytes h.client_id else []) ++
    (if 2 ≤ hv then [0] else [])

/-- Modelled from the `kafka_protocol` library: `ResponseHeader::decode` at a
given header version — a big-endian `i32` correlation id, followed for v1+
by a tagged-field section. -/
def ResponseHeader.decode (version : Int) (bs : List Nat) :
    Option (ResponseHeader × List Nat) :=
  if bs.length < 4 then none
  else
    let cid := toInt32 (readU32 bs)
    let rest := bs.drop 4
    if 1 ≤ version then
      match decodeUVarint rest with
      | none => none
      | some (n, rest1) =>
        match skipTaggedFields n rest1 with
        | none => none
        | some rest2 => some (⟨cid⟩, rest2)
    else some (⟨cid⟩, rest)

/-- Request body (`kafka_protocol::messages::MetadataRequest`); the body's
serialized form is treated as opaque bytes. -/
structure MetadataRequest where
  payload : List Nat
deriving DecidableEq, Repr

/-- Request body (`kafka_protocol::messages::ApiVersionsRequest`). -/
structure ApiVersionsRequest where
  payload : List Nat
deriving DecidableEq, Repr

/-- Request body (`kafka_protocol::messages::LeaderAndIsrRequest`). -/
structure LeaderAndIsrRequest where
  payload : List Nat
deriving DecidableEq, Repr

/-- Request body (`kafka_protocol::messages::CreateTopicsRequest`). -/
structure CreateTopicsRequest where
  payload : List Nat
deriving DecidableEq, Repr

/-- Request body (`kafka_protocol::messages::ProduceRequest`), a
representative of the request kinds outside the supported set. -/
structure ProduceRequest where
  payload : List Nat
deriving DecidableEq, Repr

/-- Request body (`kafka_protocol::messages::FetchRequest`), a second
representative of the unsupported request kinds. -/
structure FetchRequest where
  payload : List Nat
deriving DecidableEq, Repr

/-- `kafka_protocol::messages::RequestKind`, restricted to the four
supported variants plus representatives of the wildcard arm. -/
inductive RequestKind where
  | MetadataRequest (req : MetadataRequest)
  | ApiVersionsRequest (req : ApiVersionsRequest)
  | LeaderAndIsrRequest (req : LeaderAndIsrRequest)
  | CreateTopicsRequest (req : CreateTopicsRequest)
  | ProduceRequest (req : ProduceRequest)
  | FetchRequest (req : FetchRequest)
deriving DecidableEq, Repr

/-- Response body (`kafka_protocol::messages::MetadataResponse`); decoding is
opaque, so the model records the version argument the decoder received and
the bytes it consumed. -/
structure MetadataResponse where
  decodedVersion : Int
  payload : List Nat
deriving DecidableEq, Repr

/-- Response body (`kafka_protocol::messages::ApiVersionsResponse`). -/
structure ApiVersionsResponse where
  decodedVersion : Int
  payload : List Nat
deriving DecidableEq, Repr

/-- Response body (`kafka_protocol::messages::LeaderAndIsrResponse`). -/
structure LeaderAndIsrResponse where
  decodedVersion : Int
  payload : List Nat
deriving DecidableEq, Repr

/-- Response body (`kafka_protocol::messages::CreateTopicsResponse`). -/
structure CreateTopicsResponse where
  decodedVersion : Int
  payload : List Nat
deriving DecidableEq, Repr

/-- `kafka_protocol::messages::ResponseKind`, restricted to the supported
variants. -/
inductive ResponseKind where
  | MetadataResponse (res : MetadataResponse)
  | ApiVersionsResponse (res : ApiVersionsResponse)
  | LeaderAndIsrResponse (res : LeaderAndIsrResponse)
  | CreateTopicsResponse (res : CreateTopicsResponse)
deriving DecidableEq, Repr

/-- `kafka_protocol::messages::ApiKey`, restricted to the keys the claims
exercise (the four supported APIs plus valid-but-unsupported keys). -/
inductive ApiKey where
  | ProduceKey
  | FetchKey
  | ListOffsetsKey
  | MetadataKey
  | LeaderAndIsrKey
  | ApiVersionsKey
  | CreateTopicsKey
deriving DecidableEq, Repr

/-- Modelled from the `kafka_protocol` library: `ApiKey::try_from(i16)`,
defined on the numeric keys of the modelled variants. -/
def ApiKey.tryFrom : Int → Option ApiKey
  | 0 => some .ProduceKey
  | 1 => some .FetchKey
  | 2 => some .ListOffsetsKey
  | 3 => some .MetadataKey
  | 4 => some .LeaderAndIsrKey
  | 18 => some .ApiVersionsKey
  | 19 => some .CreateTopicsKey
  | _ => none

/-- Modelled from the `kafka_protocol` library: the numeric API key constant
of each request kind. -/
def RequestKind.apiKeyInt : RequestKind → Int
  | .MetadataRequest _ => 3
  | .ApiVersionsRequest _ => 18
  | .LeaderAndIsrRequest _ => 4
  | .CreateTopicsRequest _ => 19
  | .ProduceRequest _ => 0
  | .FetchRequest _ => 1

/-- The four request variants handled by `encode_request`'s match arms. -/
def RequestKind.isSupported : RequestKind → Bool
  | .MetadataRequest _ => true
  | .ApiVersionsRequest _ => true
  | .LeaderAndIsrRequest _ => true
  | .CreateTopicsRequest _ => true
  | _ => false

/-- Modelled from the `kafka_protocol` library: request-header version used
by `MetadataRequest` (flexible from v9). -/
def MetadataRequest.header_version (v : Int) : Int := if 9 ≤ v then 2 else 1

/-- Modelled from the `kafka_protocol` library: request-header version used
by `ApiVersionsRequest` (flexible from v3). -/
def ApiVersionsRequest.header_version (v : Int) : Int := if 3 ≤ v then 2 else 1

/-- Modelled from the `kafka_protocol` library: request-header version used
by `LeaderAndIsrRequest` (flexible from v4). -/
def LeaderAndIsrRequest.header_version (v : Int) : Int := if 4 ≤ v then 2 else 1

/-- Modelled from the `kafka_protocol` library: request-header version used
by `CreateTopicsRequest` (flexible from v5). -/
def CreateTopicsRequest.header_version (v : Int) : Int := if 5 ≤ v then 2 else 1

/-- Modelled from the `kafka_protocol` library: response-header version used
by `MetadataResponse` (flexible from v9). -/
def MetadataResponse.header_version (v : Int) : Int := if 9 ≤ v then 1 else 0

/-- Modelled from the `kafka_protocol` library: response-header version used
by `ApiVersionsResponse` — always 0, a protocol quirk. -/
def ApiVersionsResponse.header_version (_ : Int) : Int := 0

/-- Modelled from the `kafka_protocol` library: response-header version used
by `LeaderAndIsrResponse` (flexible from v4). -/
def LeaderAndIsrResponse.header_version (v : Int) : Int := if 4 ≤ v then 1 else 0

/-- Modelled from the `kafka_protocol` library: response-header version used
by `CreateTopicsResponse` (flexible from v5). -/
def CreateTopicsResponse.header_version (v : Int) : Int := if 5 ≤ v then 1 else 0

/-- Modelled from the `kafka_protocol` library: body serialization is opaque
bytes, independent of the version argument. -/
def MetadataRequest.encode (req : MetadataRequest) (_ : Int) : List Nat := req.payload

/-- Opaque body serialization for `ApiVersionsRequest`. -/
def ApiVersionsRequest.encode (req : ApiVersionsRequest) (_ : Int) : List Nat := req.payload

/-- Opaque body serialization for `LeaderAndIsrRequest`. -/
def LeaderAndIsrRequest.encode (req : LeaderAndIsrRequest) (_ : Int) : List Nat := req.payload

/-- Opaque body serialization for `CreateTopicsRequest`. -/
def CreateTopicsRequest.encode (req : CreateTopicsRequest) (_ : Int) : List Nat := req.payload

/-- Modelled from the `kafka_protocol` library: body decoding is opaque; the
model records the version argument and the consumed bytes. -/
def MetadataResponse.decode (bs : List Nat) (version : Int) : MetadataResponse :=
  ⟨version, bs⟩

/-- Opaque body decoding for `ApiVersionsResponse`. -/
def ApiVersionsResponse.decode (bs : List Nat) (version : Int) : ApiVersionsResponse :=
  ⟨version, bs⟩

/-- Opaque body decoding for `LeaderAndIsrResponse`. -/
def LeaderAndIsrResponse.decode (bs : List Nat) (version : Int) : LeaderAndIsrResponse :=
  ⟨version, bs⟩

/-- Opaque body decoding for `CreateTopicsResponse`. -/
def CreateTopicsResponse.decode (bs : List Nat) (version : Int) : CreateTopicsResponse :=
  ⟨version, bs⟩

/-- The error values the codec paths can return: `EncodeError` and
`DecodeError` from `kafka_protocol`, and the length codec's I/O error for an
over-long frame. -/
inductive KError where
  | encodeError
  | decodeError
  | frameError
deriving DecidableEq, Repr

/-- `tokio_util::codec::LengthDelimitedCodec` as configured by
`KafkaClientCodec::new`: 4-byte big-endian length field, no adjustment, the
header skipped. `decodeState` is `none` in the `Head` state and `some n`
after the head of a frame of declared length `n` has been consumed. -/
structure LengthDelimitedCodec where
  decodeState : Option Nat
  max_frame_length : Nat
deriving DecidableEq, Repr

/-- Modelled from the `tokio_util` library: `LengthDelimitedCodec::decode`.
In the `Head` state it returns `none` while fewer than four bytes are
buffered, rejects a declared length above `max_frame_length`, and otherwise
eagerly consumes the four header bytes, remembering the declared length; in
the `Data n` state it returns `none` until `n` bytes are buffered and then
yields exactly those `n` bytes. -/
def LengthDelimitedCodec.decode (c : LengthDelimitedCodec) (src : List Nat) :
    Except Unit (Option (List Nat)) × LengthDelimitedCodec × List Nat :=
  match c.decodeState with
  | some n =>
    if src.length < n then (.ok none, c, src)
    else (.ok (some (src.take n)), { c with decodeState := none }, src.drop n)
  | none =>
    if src.length < 4 then (.ok none, c, src)
    else
      let n := readU32 src
      if c.max_frame_length < n then (.error (), c, src)
      else
        let rest := src.drop 4
        if rest.length < n then (.ok none, { c with decodeState := some n }, rest)
        else (.ok (some (rest.take n)), c, rest.drop n)

/-- Modelled from the `tokio_util` library: `LengthDelimitedCodec::encode`
writes a 4-byte big-endian length followed by the data, failing if the data
exceeds `max_frame_length`. -/
def LengthDelimitedCodec.encode (c : LengthDelimitedCodec) (data dst : List Nat) :
    Except Unit (List Nat) :=
  if c.max_frame_length < data.length then .error ()
  else .ok (dst ++ encU32 data.length ++ data)

/-- The pending-request table: `HashMap<i32, RequestHeader>` as an
association list (key order is irrelevant; all lemmas go through lookups). -/
def Table := List (Int × RequestHeader)
deriving DecidableEq, Repr

/-- Keys of the pending-request table. -/
def Table.keys (t : Table) : List Int := t.map Prod.fst

/-- Drop every entry carrying the given key (the map has at most one). -/
def Table.removeKey (t : Table) (k : Int) : Table :=
  t.filter (fun p => decide (p.1 ≠ k))

/-- `HashMap::insert`: replace any entry for the key with the new value. -/
def Table.insert (t : Table) (k : Int) (v : RequestHeader) : Table :=
  (k, v) :: t.removeKey k

/-- `HashMap::get` by key. -/
def Table.lookup (t : Table) (k : Int) : Option RequestHeader :=
  (t.find? (fun p => decide (p.1 = k))).map Prod.snd

/-- `HashMap::remove`: the removed value, if any, and the remaining table.
When the key is absent the table is returned untouched. -/
def Table.remove (t : Table) (k : Int) : Option RequestHeader × Table :=
  match t.lookup k with
  | none => (none, t)
  | some v => (some v, t.removeKey k)

/-- `KafkaClientCodec` (src/kafka/client.rs): the unused atomic counter, the
pending-request table, and the length codec. -/
structure KafkaClientCodec where
  correlation_id : Int
  requests : Table
  length_codec : LengthDelimitedCodec
deriving DecidableEq, Repr

/-- `KafkaClientCodec::new`: zeroed counter, empty table, length codec with
`max_frame_length = i32::MAX` and a 4-byte length field. -/
def KafkaClientCodec.new : KafkaClientCodec :=
  { correlation_id := 0
    requests := []
    length_codec := { decodeState := none, max_frame_length := 2 ^ 31 - 1 } }

/-- `KafkaClientCodec::encode_request`: dispatch on the request variant,
emitting header bytes at that API's header version followed by body bytes;
any other variant is an `EncodeError`. -/
def KafkaClientCodec.encode_request (header : RequestHeader) (request : RequestKind)
    (version : Int) : Except KError (List Nat) :=
  match request with
  | .MetadataRequest req =>
    .ok (header.encode (MetadataRequest.header_version version) ++ req.encode version)
  | .ApiVersionsRequest req =>
    .ok (header.encode (ApiVersionsRequest.header_version version) ++ req.encode version)
  | .LeaderAndIsrRequest req =>
    .ok (header.encode (LeaderAndIsrRequest.header_version version) ++ req.encode version)
  | .CreateTopicsRequest req =>
    .ok (header.encode (CreateTopicsRequest.header_version version) ++ req.encode version)
  | _ => .error .encodeError

/-- `KafkaClientCodec::decode_response`: dispatch on the recorded API key;
note that the `ApiVersions`, `LeaderAndIsr` and `CreateTopics` arms hand the
body decoder `header_version version` where the `Metadata` arm hands it
`version` itself, exactly as the source does. -/
def KafkaClientCodec.decode_response (bs : List Nat) (api_key : ApiKey)
    (version : Int) : Except KError ResponseKind :=
  match api_key with
  | .MetadataKey =>
    .ok (.MetadataResponse (MetadataResponse.decode bs version))
  | .ApiVersionsKey =>
    .ok (.ApiVersionsResponse
      (ApiVersionsResponse.decode bs (ApiVersionsResponse.header_version version)))
  | .LeaderAndIsrKey =>
    .ok (.LeaderAndIsrResponse
      (LeaderAndIsrResponse.decode bs (LeaderAndIsrResponse.header_version version)))
  | .CreateTopicsKey =>
    .ok (.CreateTopicsResponse
      (CreateTopicsResponse.decode bs (CreateTopicsResponse.header_version version)))
  | _ => .error .decodeError

/-- `Encoder::encode` for `KafkaClientCodec`: the pending-table insert
happens before `encode_request` runs, so a failed encode still leaves the
entry registered, exactly as in the source. -/
def KafkaClientCodec.encode (c : KafkaClientCodec) (item : RequestHeader × RequestKind)
    (dst : List Nat) : Except KError Unit × KafkaClientCodec × List Nat :=
  let header := item.1
  let api_version := header.request_api_version
  let c1 := { c with requests := c.requests.insert header.correlation_id header }
  match KafkaClientCodec.encode_request header item.2 api_version with
  | .error e => (.error e, c1, dst)
  | .ok bytes =>
    match c1.length_codec.encode bytes dst with
    | .error _ => (.error .frameError, c1, dst)
    | .ok dst1 => (.ok (), c1, dst1)

/-- Outcome of one `Decoder::decode` call: an item (`Ok(Some(..))`), a
request for more bytes (`Ok(None)`), a returned error (`Err(..)`), or a
panic — the source's `.unwrap()` calls abort the process instead of
returning. -/
inductive DecodeResult where
  | item (header : ResponseHeader) (response : ResponseKind)
  | needMore
  | err (e : KError)
  | panicked
deriving DecidableEq, Repr

/-- `Decoder::decode` for `KafkaClientCodec`: frame the buffer, decode the
response header at version literal 1, `remove(..).unwrap()` the pending
entry (a panic when the correlation id is unknown), `try_from(..).unwrap()`
the recorded API key, then decode the body. Returns the outcome together
with the codec state and the remaining buffer at the point of return. -/
def KafkaClientCodec.decode (c : KafkaClientCodec) (src : List Nat) :
    DecodeResult × KafkaClientCodec × List Nat :=
  match c.length_codec.decode src with
  | (.error _, lc, src1) => (.err .frameError, { c with length_codec := lc }, src1)
  | (.ok none, lc, src1) => (.needMore, { c with length_codec := lc }, src1)
  | (.ok (some bytes), lc, src1) =>
    let c1 := { c with length_codec := lc }
    match ResponseHeader.decode 1 bytes with
    | none => (.err .decodeError, c1, src1)
    | some (header, body) =>
      match c1.requests.remove header.correlation_id with
      | (none, _) => (.panicked, c1, src1)
      | (some request_header, requests1) =>
        let c2 := { c1 with requests := requests1 }
        match ApiKey.tryFrom request_header.request_api_key with
        | none => (.panicked, c2, src1)
        | some api_key =>
          match KafkaClientCodec.decode_response body api_key
              request_header.request_api_version with
          | .error e => (.err e, c2, src1)
          | .ok response => (.item header response, c2, src1)

/-- `CorrelationStore` (src/kafka/client.rs): the in-flight id set and the
id generator (`AtomicI32`). -/
structure CorrelationStore where
  correlation_ids : List Int
  id_gen : Int
deriving DecidableEq, Repr

/-- `CorrelationStore::default()`: empty set, counter at zero. -/
def CorrelationStore.new : CorrelationStore := ⟨[], 0⟩

/-- `TagStore::assign_tag`: fetch-and-add the counter (wrapping `i32`
arithmetic), insert the produced tag into the in-flight set, stamp it into
the request header, and return it. -/
def CorrelationStore.assign_tag (s : CorrelationStore)
    (request : RequestHeader × RequestKind) :
    Int × CorrelationStore × (RequestHeader × RequestKind) :=
  let tag := s.id_gen
  (tag,
   { correlation_ids := s.correlation_ids.insert tag
     id_gen := wrap32 (s.id_gen + 1) },
   ({ request.1 with correlation_id := tag }, request.2))

/-- `TagStore::finish_tag`: read the correlation id from the decoded
response header, drop it from the in-flight set, and return it. -/
def CorrelationStore.finish_tag (s : CorrelationStore)
    (response : ResponseHeader × ResponseKind) : Int × CorrelationStore :=
  let tag := response.1.correlation_id
  (tag, { s with correlation_ids := s.correlation_ids.erase tag })

/-- Modelled from the `tokio_tower` library: the variants of
`tokio_tower::Error`, the internal multiplexer/transport error type. -/
inductive TokioTowerError where
  | brokenTransportSend
  | brokenTransportRecv
  | transportFull
  | clientDropped
  | desynchronized
deriving DecidableEq, Repr

/-- `KafkaClientError` (src/kafka/client.rs): a unit struct with no data. -/
structure KafkaClientError where
deriving DecidableEq, Repr

/-- Outcome of the `From` conversion into `KafkaClientError`: either a
converted public error value is returned, or the process panics. -/
inductive FromConversionResult where
  | converted (e : KafkaClientError)
  | panicked
deriving DecidableEq, Repr

/-- `impl From<Error<..>> for KafkaClientError`: the source prints the value
and then executes `todo!()`, which panics unconditionally. -/
def kafkaClientErrorFrom (_ : TokioTowerError) : FromConversionResult :=
  .panicked

/-- Environment for `DisconnectedKafkaClient::connect`: whether the TCP
connection to the address can be established, and whether the built
service's readiness poll succeeds. Modelled from the spec as far as the
external effects go; the control flow is the source's. -/
structure ConnectEnv where
  connectOk : Bool
  readyOk : Bool
deriving DecidableEq, Repr

/-- What `connect` hands back to its caller. -/
inductive ConnectResult where
  | handle
  | setupError
  | panicked
deriving DecidableEq, Repr

/-- A trace of one `connect` call: its result, how many TCP connection
attempts it made, and how many readiness checks it performed before
returning. -/
structure ConnectTrace where
  result : ConnectResult
  connect_attempts : Nat
  readiness_checks : Nat
deriving DecidableEq, Repr

/-- `DisconnectedKafkaClient::connect`: one `TcpStream::connect` followed by
`.unwrap()` (a panic on refusal or transport-layer timeout), then the codec,
transport and client are built and one readiness check runs, again followed
by `.unwrap()`; only then is the handle returned. No retry on any path, and
no error return on any path. -/
def DisconnectedKafkaClient.connect (env : ConnectEnv) : ConnectTrace :=
  if env.connectOk then
    if env.readyOk then ⟨.handle, 1, 1⟩
    else ⟨.panicked, 1, 1⟩
  else ⟨.panicked, 1, 0⟩

/-- A fixed request used when iterating `assign_tag`. -/
def dummyRequest : RequestHeader × RequestKind :=
  (⟨3, 0, 0, none⟩, .MetadataRequest ⟨[]⟩)

/-- The correlation store after `n` consecutive `assign_tag` calls starting
from `CorrelationStore::default()`, with no response finished in between. -/
def assignIter : Nat → CorrelationStore
  | 0 => CorrelationStore.new
  | n + 1 => ((assignIter n).assign_tag dummyRequest).2.1

/-- The combined mutable state of the client: the correlation store and the
codec (whose pending-request table the codec operations mutate). -/
structure Sys where
  store : CorrelationStore
  codec : KafkaClientCodec
deriving DecidableEq, Repr

/-- The freshly built client state: default store, new codec. -/
def Sys.init : Sys := ⟨CorrelationStore.new, KafkaClientCodec.new⟩

/-- The in-flight id set coincides with the key set of the pending-request
table, and neither holds a duplicate. -/
def Sys.tableMatches (s : Sys) : Prop :=
  s.store.correlation_ids.toFinset = s.codec.requests.keys.toFinset ∧
  s.store.correlation_ids.Nodup ∧ s.codec.requests.keys.Nodup

/-- One primitive operation of the client, at the granularity the operations
run: `assign_tag`, `encode`, `decode` and `finish_tag` each change the state
on their own. -/
inductive PrimStep : Sys → Sys → Prop where
  | assign (s : Sys) (r : RequestHeader × RequestKind) :
      PrimStep s ⟨(s.store.assign_tag r).2.1, s.codec⟩
  | encodeOp (s : Sys) (item : RequestHeader × RequestKind) (dst : List Nat) :
      PrimStep s ⟨s.store, (s.codec.encode item dst).2.1⟩
  | decodeOp (s : Sys) (src : List Nat) :
      PrimStep s ⟨s.store, (s.codec.decode src).2.1⟩
  | finish (s : Sys) (resp : ResponseHeader × ResponseKind) :
      PrimStep s ⟨(s.store.finish_tag resp).2, s.codec⟩

/-- States reachable from the fresh client by any interleaving of the four
primitive operations. -/
inductive ReachablePrim : Sys → Prop where
  | base : ReachablePrim Sys.init
  | step {s t : Sys} : ReachablePrim s → PrimStep s t → ReachablePrim t

/-- A composite client operation as the multiplexed transport drives them:
`submit` is an `assign_tag` immediately followed by the `encode` of the
tagged request (whether or not the encode succeeds), and `deliver` is a
`decode` that yields a response immediately followed by the `finish_tag` of
that response. -/
inductive OkStep : Sys → Sys → Prop where
  | submit (s : Sys) (r : RequestHeader × RequestKind) (dst : List Nat) :
      OkStep s ⟨(s.store.assign_tag r).2.1,
                (s.codec.encode (s.store.assign_tag r).2.2 dst).2.1⟩
  | deliver {s : Sys} {src : List Nat} {h : ResponseHeader} {resp : ResponseKind}
      (hdec : (s.codec.decode src).1 = .item h resp) :
      OkStep s ⟨(s.store.finish_tag (h, resp)).2, (s.codec.decode src).2.1⟩

/-- States reachable from the fresh client by interleavings of the composite
`submit` and `deliver` operations. -/
inductive ReachableOk : Sys → Prop where
  | base : ReachableOk Sys.init
  | step {s t : Sys} : ReachableOk s → OkStep s t → ReachableOk t

theorem encU32_length (n : Nat) : (encU32 n).length = 4 := rfl

theorem readU32_encU32_append (n : Nat) (h : n < 2 ^ 32) (rest : List Nat) :
    readU32 (encU32 n ++ rest) = n := by
  simp only [encU32, List.cons_append, List.nil_append, readU32]
  omega

theorem wrap32_eq_self (i : Int) (h1 : -(2 ^ 31) ≤ i) (h2 : i < 2 ^ 31) :
    wrap32 i = i := by
  unfold wrap32; omega

theorem wrap32_wrap32_add (i j : Int) : wrap32 (wrap32 i + j) = wrap32 (i + j) := by
  unfold wrap32; omega

theorem LengthDelimitedCodec.decode_short (c : LengthDelimitedCodec) (src : List Nat)
    (hstate : c.decodeState = none) (h : src.length < 4) :
    c.decode src = (.ok none, c, src) := by
  unfold LengthDelimitedCodec.decode
  rw [hstate]
  simp [h]

theorem LengthDelimitedCodec.decode_head_partial (c : LengthDelimitedCodec)
    (n : Nat) (tail : List Nat)
    (hstate : c.decodeState = none) (hmax : n ≤ c.max_frame_length)
    (h32 : n < 2 ^ 32) (hshort : tail.length < n) :
    c.decode (encU32 n ++ tail) =
      (.ok none, { c with decodeState := some n }, tail) := by
  unfold LengthDelimitedCodec.decode
  rw [hstate]
  have hlen : (encU32 n ++ tail).length = 4 + tail.length := by simp [encU32]; omega
  have hr : readU32 (encU32 n ++ tail) = n := readU32_encU32_append n h32 tail
  have hd : (encU32 n ++ tail).drop 4 = tail := by
    rw [show (4 : Nat) = (encU32 n).length from rfl, List.drop_left]
  simp only [hlen, hr, hd]
  rw [if_neg (by omega), if_neg (by omega), if_pos hshort]

theorem LengthDelimitedCodec.decode_full (c : LengthDelimitedCodec)
    (payload rest : List Nat)
    (hstate : c.decodeState = none) (hmax : payload.length ≤ c.max_frame_length)
    (h32 : payload.length < 2 ^ 32) :
    c.decode (encU32 payload.length ++ (payload ++ rest)) =
      (.ok (some payload), c, rest) := by
  unfold LengthDelimitedCodec.decode
  rw [hstate]
  have hlen : (encU32 payload.length ++ (payload ++ rest)).length =
      4 + payload.length + rest.length := by simp [encU32]; omega
  have hr : readU32 (encU32 payload.length ++ (payload ++ rest)) = payload.length :=
    readU32_encU32_append payload.length h32 (payload ++ rest)
  have hd : (encU32 payload.length ++ (payload ++ rest)).drop 4 = payload ++ rest := by
    rw [show (4 : Nat) = (encU32 payload.length).length from rfl, List.drop_left]
  have ht : (payload ++ rest).take payload.length = payload := List.take_left payload rest
  have hd2 : (payload ++ rest).drop payload.length = rest := List.drop_left payload rest
  simp only [hlen, hr, hd, ht, hd2]
  rw [if_neg (by omega)]
  rw [if_neg (by omega)]
  rw [if_neg (by simp)]

theorem LengthDelimitedCodec.decode_data_short (c : LengthDelimitedCodec)
    (n : Nat) (src : List Nat)
    (hstate : c.decodeState = some n) (h : src.length < n) :
    c.decode src = (.ok none, c, src) := by
  unfold LengthDelimitedCodec.decode
  rw [hstate]
  simp [h]

theorem LengthDelimitedCodec.decode_data_full (c : LengthDelimitedCodec)
    (n : Nat) (payload rest : List Nat)
    (hstate : c.decodeState = some n) (hlen : payload.length = n) :
    c.decode (payload ++ rest) =
      (.ok (some payload), { c with decodeState := none }, rest) := by
  unfold LengthDelimitedCodec.decode
  simp only [hstate]
  have ht : (payload ++ rest).take n = payload := by
    rw [← hlen]; exact List.take_left payload rest
  have hd : (payload ++ rest).drop n = rest := by
    rw [← hlen]; exact List.drop_left payload rest
  simp only [ht, hd]
  rw [if_neg (by simp; omega)]

theorem Table.lookup_insert_self (t : Table) (k : Int) (v : RequestHeader) :
    (t.insert k v).lookup k = some v := by
  simp [Table.insert, Table.lookup, List.find?]

theorem Table.remove_of_lookup_none (t : Table) (k : Int)
    (h : t.lookup k = none) : t.remove k = (none, t) := by
  simp [Table.remove, h]

theorem Table.remove_of_lookup_some (t : Table) (k : Int) (v : RequestHeader)
    (h : t.lookup k = some v) : t.remove k = (some v, t.removeKey k) := by
  simp [Table.remove, h]

theorem Table.keys_insert (t : Table) (k : Int) (v : RequestHeader) :
    (t.insert k v).keys = k :: (t.removeKey k).keys := rfl

theorem Table.keys_removeKey (t : Table) (k : Int) :
    (t.removeKey k).keys = t.keys.filter (fun i => decide (i ≠ k)) := by
  induction t with
  | nil => rfl
  | cons p t ih =>
    by_cases h : p.1 = k <;>
      simp [Table.removeKey, Table.keys, List.filter_cons, h] at ih ⊢ <;>
      simpa [Table.removeKey, Table.keys] using ih

theorem KafkaClientCodec.encode_state (c : KafkaClientCodec)
    (item : RequestHeader × RequestKind) (dst : List Nat) :
    (c.encode item dst).2.1 =
      { c with requests := c.requests.insert item.1.correlation_id item.1 } := by
  unfold KafkaClientCodec.encode
  cases h : KafkaClientCodec.encode_request item.1 item.2 item.1.request_api_version with
  | error e => simp [h]
  | ok bytes =>
    cases h2 : LengthDelimitedCodec.encode c.length_codec bytes dst <;> simp [h, h2]

theorem KafkaClientCodec.encode_request_unsupported (header : RequestHeader)
    (request : RequestKind) (version : Int) (h : request.isSupported = false) :
    KafkaClientCodec.encode_request header request version = .error .encodeError := by
  cases request <;> simp [RequestKind.isSupported] at h ⊢ <;> rfl

theorem KafkaClientCodec.decode_of_lc_none (c : KafkaClientCodec) (src src' : List Nat)
    (lc' : LengthDelimitedCodec)
    (h : c.length_codec.decode src = (.ok none, lc', src')) :
    c.decode src = (.needMore, { c with length_codec := lc' }, src') := by
  unfold KafkaClientCodec.decode
  simp only [h]

theorem KafkaClientCodec.decode_of_lc_error (c : KafkaClientCodec)
    (src src' : List Nat) (lc' : LengthDelimitedCodec) (e : Unit)
    (h : c.length_codec.decode src = (.error e, lc', src')) :
    c.decode src = (.err .frameError, { c with length_codec := lc' }, src') := by
  unfold KafkaClientCodec.decode
  simp only [h]

theorem KafkaClientCodec.decode_header_fail (c : KafkaClientCodec)
    (src src' bytes : List Nat) (lc' : LengthDelimitedCodec)
    (hlc : c.length_codec.decode src = (.ok (some bytes), lc', src'))
    (hhdr : ResponseHeader.decode 1 bytes = none) :
    c.decode src = (.err .decodeError, { c with length_codec := lc' }, src') := by
  unfold KafkaClientCodec.decode
  simp only [hlc, hhdr]

theorem KafkaClientCodec.decode_unknown_id (c : KafkaClientCodec)
    (src src' bytes body : List Nat) (lc' : LengthDelimitedCodec)
    (header : ResponseHeader)
    (hlc : c.length_codec.decode src = (.ok (some bytes), lc', src'))
    (hhdr : ResponseHeader.decode 1 bytes = some (header, body))
    (habsent : c.requests.lookup header.correlation_id = none) :
    c.decode src = (.panicked, { c with length_codec := lc' }, src') := by
  unfold KafkaClientCodec.decode
  simp only [hlc, hhdr, Table.remove_of_lookup_none _ _ habsent]

theorem KafkaClientCodec.decode_tryFrom_fail (c : KafkaClientCodec)
    (src src' bytes body : List Nat) (lc' : LengthDelimitedCodec)
    (header : ResponseHeader) (reqHdr : RequestHeader)
    (hlc : c.length_codec.decode src = (.ok (some bytes), lc', src'))
    (hhdr : ResponseHeader.decode 1 bytes = some (header, body))
    (hfound : c.requests.lookup header.correlation_id = some reqHdr)
    (hkey : ApiKey.tryFrom reqHdr.request_api_key = none) :
    c.decode src = (.panicked,
      { c with length_codec := lc',
               requests := c.requests.removeKey header.correlation_id }, src') := by
  unfold KafkaClientCodec.decode
  simp only [hlc, hhdr, Table.remove_of_lookup_some _ _ _ hfound, hkey]

theorem KafkaClientCodec.decode_body_fail (c : KafkaClientCodec)
    (src src' bytes body : List Nat) (lc' : LengthDelimitedCodec)
    (header : ResponseHeader) (reqHdr : RequestHeader) (api_key : ApiKey) (e : KError)
    (hlc : c.length_codec.decode src = (.ok (some bytes), lc', src'))
    (hhdr : ResponseHeader.decode 1 bytes = some (header, body))
    (hfound : c.requests.lookup header.correlation_id = some reqHdr)
    (hkey : ApiKey.tryFrom reqHdr.request_api_key = some api_key)
    (hresp : KafkaClientCodec.decode_response body api_key reqHdr.request_api_version
      = .error e) :
    c.decode src = (.err e,
      { c with length_codec := lc',
               requests := c.requests.removeKey header.correlation_id }, src') := by
  unfold KafkaClientCodec.decode
  simp only [hlc, hhdr, Table.remove_of_lookup_some _ _ _ hfound, hkey, hresp]

theorem KafkaClientCodec.decode_found (c : KafkaClientCodec)
    (src src' bytes body : List Nat) (lc' : LengthDelimitedCodec)
    (header : ResponseHeader) (reqHdr : RequestHeader) (api_key : ApiKey)
    (response : ResponseKind)
    (hlc : c.length_codec.decode src = (.ok (some bytes), lc', src'))
    (hhdr : ResponseHeader.decode 1 bytes = some (header, body))
    (hfound : c.requests.lookup header.correlation_id = some reqHdr)
    (hkey : ApiKey.tryFrom reqHdr.request_api_key = some api_key)
    (hresp : KafkaClientCodec.decode_response body api_key reqHdr.request_api_version
      = .ok response) :
    c.decode src = (.item header response,
      { c with length_codec := lc',
               requests := c.requests.removeKey header.correlation_id }, src') := by
  unfold KafkaClientCodec.decode
  simp only [hlc, hhdr, Table.remove_of_lookup_some _ _ _ hfound, hkey, hresp]

theorem KafkaClientCodec.decode_item_inv {c : KafkaClientCodec} {src : List Nat}
    {hr : ResponseHeader} {resp : ResponseKind}
    (hdec : (c.decode src).1 = .item hr resp) :
    (∃ v, c.requests.lookup hr.correlation_id = some v) ∧
      (c.decode src).2.1.requests = c.requests.removeKey hr.correlation_id := by
  rcases hlc : c.length_codec.decode src with ⟨r, lc', src'⟩
  rcases r with e | o
  · rw [KafkaClientCodec.decode_of_lc_error c src src' lc' e hlc] at hdec
    simp at hdec
  rcases o with _ | bytes
  · rw [KafkaClientCodec.decode_of_lc_none c src src' lc' hlc] at hdec
    simp at hdec
  rcases hh : ResponseHeader.decode 1 bytes with _ | hb
  · rw [KafkaClientCodec.decode_header_fail c src src' bytes lc' hlc hh] at hdec
    simp at hdec
  obtain ⟨header, body⟩ := hb
  rcases hlk : c.requests.lookup header.correlation_id with _ | v
  · rw [KafkaClientCodec.decode_unknown_id c src src' bytes body lc' header hlc hh hlk]
      at hdec
    simp at hdec
  rcases hk : ApiKey.tryFrom v.request_api_key with _ | api_key
  · rw [KafkaClientCodec.decode_tryFrom_fail c src src' bytes body lc' header v
      hlc hh hlk hk] at hdec
    simp at hdec
  rcases hdr : KafkaClientCodec.decode_response body api_key v.request_api_version
      with e | response
  · rw [KafkaClientCodec.decode_body_fail c src src' bytes body lc' header v api_key e
      hlc hh hlk hk hdr] at hdec
    simp at hdec
  have hfull := KafkaClientCodec.decode_found c src src' bytes body lc' header v
    api_key response hlc hh hlk hk hdr
  rw [hfull] at hdec
  simp only [DecodeResult.item.injEq] at hdec
  obtain ⟨h1, h2⟩ := hdec
  subst h1
  rw [hfull]
  exact ⟨⟨v, hlk⟩, rfl⟩

theorem KafkaClientCodec.decode_consumed_frame (c : KafkaClientCodec)
    {src src' bytes : List Nat} {lc' : LengthDelimitedCodec}
    (hlc : c.length_codec.decode src = (.ok (some bytes), lc', src')) :
    (c.decode src).1 ≠ .needMore ∧ (c.decode src).2.2 = src' ∧
      (c.decode src).2.1.length_codec = lc' := by
  rcases hh : ResponseHeader.decode 1 bytes with _ | hb
  · rw [KafkaClientCodec.decode_header_fail c src src' bytes lc' hlc hh]
    simp
  obtain ⟨header, body⟩ := hb
  rcases hlk : c.requests.lookup header.correlation_id with _ | v
  · rw [KafkaClientCodec.decode_unknown_id c src src' bytes body lc' header hlc hh hlk]
    simp
  rcases hk : ApiKey.tryFrom v.request_api_key with _ | api_key
  · rw [KafkaClientCodec.decode_tryFrom_fail c src src' bytes body lc' header v
      hlc hh hlk hk]
    simp
  rcases hdr : KafkaClientCodec.decode_response body api_key v.request_api_version
      with e | response
  · rw [KafkaClientCodec.decode_body_fail c src src' bytes body lc' header v api_key e
      hlc hh hlk hk hdr]
    simp
  rw [KafkaClientCodec.decode_found c src src' bytes body lc' header v api_key response
    hlc hh hlk hk hdr]
  simp

theorem toFinset_filter_ne (l : List Int) (k : Int) :
    (l.filter (fun i => decide (i ≠ k))).toFinset = l.toFinset.erase k := by
  ext a
  simp [List.mem_filter, Finset.mem_erase]
  tauto

theorem toFinset_erase_of_nodup (l : List Int) (a : Int) (h : l.Nodup) :
    (l.erase a).toFinset = l.toFinset.erase a := by
  ext x
  simp [List.mem_toFinset, h.mem_erase_iff, Finset.mem_erase]

theorem Table.keys_insert_nodup (t : Table) (k : Int) (v : RequestHeader)
    (h : t.keys.Nodup) : (t.insert k v).keys.Nodup := by
  rw [Table.keys_insert, Table.keys_removeKey]
  refine List.Nodup.cons ?_ (h.filter _)
  simp [List.mem_filter]

theorem keys_toFinset_insert (t : Table) (k : Int) (v : RequestHeader) :
    (t.insert k v).keys.toFinset = insert k t.keys.toFinset := by
  rw [Table.keys_insert, Table.keys_removeKey]
  ext a
  simp [toFinset_filter_ne, Finset.mem_insert, Finset.mem_erase]
  tauto

theorem toFinset_list_insert (l : List Int) (a : Int) :
    (l.insert a).toFinset = insert a l.toFinset := by
  by_cases h : a ∈ l
  · rw [List.insert_of_mem h]
    ext x
    simp only [List.mem_toFinset, Finset.mem_insert]
    constructor
    · exact fun hx => Or.inr hx
    · rintro (rfl | hx) <;> assumption
  · rw [List.insert_of_not_mem h, List.toFinset_cons]

theorem tableMatches_submit (s : Sys) (r : RequestHeader × RequestKind)
    (dst : List Nat) (h : s.tableMatches) :
    Sys.tableMatches ⟨(s.store.assign_tag r).2.1,
      (s.codec.encode (s.store.assign_tag r).2.2 dst).2.1⟩ := by
  obtain ⟨hf, hn1, hn2⟩ := h
  refine ⟨?_, ?_, ?_⟩
  · show (s.store.correlation_ids.insert s.store.id_gen).toFinset =
      ((s.codec.encode (s.store.assign_tag r).2.2 dst).2.1).requests.keys.toFinset
    rw [KafkaClientCodec.encode_state]
    show _ = (s.codec.requests.insert s.store.id_gen _).keys.toFinset
    rw [toFinset_list_insert, keys_toFinset_insert, hf]
  · exact hn1.insert
  · show ((s.codec.encode (s.store.assign_tag r).2.2 dst).2.1).requests.keys.Nodup
    rw [KafkaClientCodec.encode_state]
    exact Table.keys_insert_nodup _ _ _ hn2

theorem tableMatches_deliver (s : Sys) {src : List Nat} {h : ResponseHeader}
    {resp : ResponseKind} (hdec : (s.codec.decode src).1 = .item h resp)
    (hI : s.tableMatches) :
    Sys.tableMatches ⟨(s.store.finish_tag (h, resp)).2, (s.codec.decode src).2.1⟩ := by
  obtain ⟨_, hreq⟩ := KafkaClientCodec.decode_item_inv hdec
  obtain ⟨hf, hn1, hn2⟩ := hI
  refine ⟨?_, ?_, ?_⟩
  · show (s.store.correlation_ids.erase h.correlation_id).toFinset =
      ((s.codec.decode src).2.1).requests.keys.toFinset
    rw [hreq, Table.keys_removeKey, toFinset_filter_ne,
      toFinset_erase_of_nodup _ _ hn1, hf]
  · exact hn1.erase _
  · show ((s.codec.decode src).2.1).requests.keys.Nodup
    rw [hreq, Table.keys_removeKey]
    exact hn2.filter _

theorem assignIter_closed_form : ∀ n : Nat, n ≤ 2 ^ 31 →
    (assignIter n).correlation_ids = List.map Int.ofNat (List.range n).reverse ∧
    (assignIter n).id_gen = wrap32 (Int.ofNat n) := by
  intro n
  induction n with
  | zero =>
    intro _
    constructor
    · rfl
    · show (0 : Int) = wrap32 0
      unfold wrap32
      omega
  | succ n ih =>
    intro hle
    obtain ⟨hids, hgen⟩ := ih (by omega)
    have hw : wrap32 (Int.ofNat n) = Int.ofNat n :=
      wrap32_eq_self _ (by show -(2 ^ 31) ≤ (n : Int); omega)
        (by show (n : Int) < 2 ^ 31; omega)
    have hnotmem : Int.ofNat n ∉ (assignIter n).correlation_ids := by
      rw [hids]
      simp
    constructor
    · show ((assignIter n).correlation_ids.insert (assignIter n).id_gen) = _
      rw [hgen, hw, List.insert_of_not_mem hnotmem, hids, List.range_succ]
      simp
    · show wrap32 ((assignIter n).id_gen + 1) = wrap32 (Int.ofNat (n + 1))
      rw [hgen, wrap32_wrap32_add]
      rfl

/-- C1 (counterexample): on a fresh codec, a complete frame carrying
correlation id 7 — which has no pending entry — makes `decode` panic (the
`unwrap` on the pending-table removal), rather than return an
`UnknownCorrelation` error; no such error value exists in the code. The
table is untouched at the panic point. -/
theorem c1_counterexample :
    (KafkaClientCodec.new.decode [0, 0, 0, 5, 0, 0, 0, 7, 0]).1 =
      DecodeResult.panicked ∧
    (KafkaClientCodec.new.decode [0, 0, 0, 5, 0, 0, 0, 7, 0]).2.1.requests =
      KafkaClientCodec.new.requests := by decide

/-- C1 (amended): for every buffer containing one complete frame whose
decoded response header carries a correlation id with no matching
pending-table entry, `decode` panics (aborting the process) instead of
returning an error, and at the panic point the pending-request table — hence
every other entry — is exactly as before the call. -/
theorem c1_decode_unknown_correlation_panics (c : KafkaClientCodec)
    (payload body rest : List Nat) (header : ResponseHeader)
    (hstate : c.length_codec.decodeState = none)
    (hmax : payload.length ≤ c.length_codec.max_frame_length)
    (h32 : payload.length < 2 ^ 32)
    (hhdr : ResponseHeader.decode 1 payload = some (header, body))
    (habsent : c.requests.lookup header.correlation_id = none) :
    c.decode (encU32 payload.length ++ (payload ++ rest)) =
      (DecodeResult.panicked, c, rest) := by
  have hlc := LengthDelimitedCodec.decode_full c.length_codec payload rest
    hstate hmax h32
  have h := KafkaClientCodec.decode_unknown_id c
    (encU32 payload.length ++ (payload ++ rest)) rest payload body
    c.length_codec header hlc hhdr habsent
  simpa using h

/-- C1 (witness): the amended theorem applied to the fresh codec and the
concrete frame of the counterexample. -/
theorem c1_witness :
    KafkaClientCodec.new.requests.lookup (7 : Int) = none ∧
    KafkaClientCodec.new.decode [0, 0, 0, 5, 0, 0, 0, 7, 0] =
      (DecodeResult.panicked, KafkaClientCodec.new, []) := by
  refine ⟨rfl, ?_⟩
  have h := c1_decode_unknown_correlation_panics KafkaClientCodec.new
    [0, 0, 0, 7, 0] [] [] ⟨7⟩ rfl (by decide) (by decide) (by decide) rfl
  simpa using h

/-- C2 (counterexample): encoding an unsupported request (Produce) with
correlation id 7 on a fresh codec fails with `EncodeError`, yet the
pending-request table afterwards contains the entry for id 7 — the table is
not left unchanged, because the source inserts before dispatching. -/
theorem c2_counterexample :
    (KafkaClientCodec.new.encode (⟨0, 0, 7, none⟩, .ProduceRequest ⟨[]⟩) []).1 =
      Except.error KError.encodeError ∧
    (KafkaClientCodec.new.encode
        (⟨0, 0, 7, none⟩, .ProduceRequest ⟨[]⟩) []).2.1.requests =
      [(7, ⟨0, 0, 7, none⟩)] ∧
    KafkaClientCodec.new.requests = [] := ⟨rfl, rfl, rfl⟩

/-- C2 (amended): for every header/request pair whose variant is outside
the supported set, `encode` fails with `EncodeError`, but the pending table
after the call is the prior table with an entry for the header's correlation
id inserted — the entry is registered before the failure and not rolled
back; the output buffer is untouched. -/
theorem c2_encode_unsupported (c : KafkaClientCodec)
    (item : RequestHeader × RequestKind) (dst : List Nat)
    (h : item.2.isSupported = false) :
    (c.encode item dst).1 = Except.error KError.encodeError ∧
    (c.encode item dst).2.1.requests =
      c.requests.insert item.1.correlation_id item.1 ∧
    (c.encode item dst).2.2 = dst := by
  have he := KafkaClientCodec.encode_request_unsupported item.1 item.2
    item.1.request_api_version h
  unfold KafkaClientCodec.encode
  simp [he]

/-- C2 (witness): the amended theorem at a concrete unsupported request. -/
theorem c2_witness :
    (RequestKind.FetchRequest ⟨[]⟩).isSupported = false ∧
    (KafkaClientCodec.new.encode (⟨1, 0, 9, none⟩, .FetchRequest ⟨[]⟩) []).1 =
      Except.error KError.encodeError :=
  ⟨by decide,
   (c2_encode_unsupported KafkaClientCodec.new
     (⟨1, 0, 9, none⟩, .FetchRequest ⟨[]⟩) [] (by decide)).1⟩

/-- C3: the conversion from the internal multiplexer/transport error type
into `KafkaClientError` panics for every input — the source's `From` impl is
`todo!()` — so the mapping into the public taxonomy is not total and the
process aborts instead of the caller receiving a converted error value. -/
theorem c3_conversion_panics :
    ∀ e : TokioTowerError, kafkaClientErrorFrom e = .panicked ∧
      kafkaClientErrorFrom e ≠ .converted ⟨⟩ :=
  fun _ => ⟨rfl, fun h => FromConversionResult.noConfusion h⟩

/-- C4: `decode_response` hands the ApiVersions body decoder the response
HEADER version (always 0) instead of the entry's recorded API version; at a
pending entry recorded as ApiVersions v3, the body is decoded at version 0,
not 3. -/
theorem c4_body_decoded_at_wrong_version :
    (∀ (bs : List Nat) (v : Int),
        KafkaClientCodec.decode_response bs .ApiVersionsKey v =
          .ok (.ApiVersionsResponse ⟨0, bs⟩)) ∧
    (KafkaClientCodec.decode
        { KafkaClientCodec.new with requests := [(3, ⟨18, 3, 3, none⟩)] }
        [0, 0, 0, 6, 0, 0, 0, 3, 0, 99]).1 =
      DecodeResult.item ⟨3⟩ (.ApiVersionsResponse ⟨0, [99]⟩) :=
  ⟨fun _ _ => rfl, by decide⟩

/-- C7 (counterexample): the in-flight set and the pending table are
updated by different operations, so the state reached by a single
`assign_tag` from the fresh client has in-flight set `{0}` but an empty
pending table — the sets differ at that reachable instant. -/
theorem c7_counterexample :
    ¬ ∀ s : Sys, ReachablePrim s → s.tableMatches := by
  intro hall
  have hreach : ReachablePrim
      ⟨(Sys.init.store.assign_tag dummyRequest).2.1, Sys.init.codec⟩ :=
    ReachablePrim.step ReachablePrim.base (PrimStep.assign Sys.init dummyRequest)
  obtain ⟨hf, -, -⟩ := hall _ hreach
  have h0 : (0 : Int) ∈
      ((Sys.init.store.assign_tag dummyRequest).2.1.correlation_ids).toFinset := by
    decide
  rw [hf] at h0
  revert h0
  decide

/-- C7 (amended): at every instant reachable by interleavings of the
composite operations — `submit` (an `assign_tag` immediately followed by the
`encode` of the tagged request) and `deliver` (a `decode` that yields a
response immediately followed by its `finish_tag`) — the in-flight id set
equals the key set of the pending-request table, and no id appears twice in
either. -/
theorem c7_inflight_matches_table :
    ∀ s : Sys, ReachableOk s → s.tableMatches := by
  intro s hs
  induction hs with
  | base => exact ⟨rfl, List.nodup_nil, List.nodup_nil⟩
  | step hok hstep ih =>
    cases hstep with
    | submit r dst => exact tableMatches_submit _ r dst ih
    | deliver hdec => exact tableMatches_deliver _ hdec ih

/-- C7 (witness): the amended theorem at the fresh client state. -/
theorem c7_witness : Sys.tableMatches Sys.init :=
  c7_inflight_matches_table Sys.init ReachableOk.base

/-- C8 (counterexample): when the TCP connection cannot be established,
`connect` panics (the `unwrap` on `TcpStream::connect`) after its single
attempt — it does not return a setup error to the caller. -/
theorem c8_counterexample :
    DisconnectedKafkaClient.connect ⟨false, true⟩ =
      ⟨ConnectResult.panicked, 1, 0⟩ ∧
    (DisconnectedKafkaClient.connect ⟨false, true⟩).result ≠
      ConnectResult.setupError := by decide

/-- C8 (amended): `connect` makes exactly one connection attempt and never
returns a setup error on any path; when the connection and the readiness
poll succeed it performs exactly one readiness check before returning the
handle, and when the connection cannot be established it panics —
terminating the process — instead of returning an error, with no retry. -/
theorem c8_connect_spec :
    (∀ env : ConnectEnv, env.connectOk = true → env.readyOk = true →
        DisconnectedKafkaClient.connect env = ⟨ConnectResult.handle, 1, 1⟩) ∧
    (∀ env : ConnectEnv, env.connectOk = false →
        DisconnectedKafkaClient.connect env = ⟨ConnectResult.panicked, 1, 0⟩) ∧
    (∀ env : ConnectEnv,
        (DisconnectedKafkaClient.connect env).connect_attempts = 1 ∧
        (DisconnectedKafkaClient.connect env).result ≠ ConnectResult.setupError) := by
  refine ⟨fun env h1 h2 => ?_, fun env h1 => ?_, fun env => ?_⟩
  · simp [DisconnectedKafkaClient.connect, h1, h2]
  · simp [DisconnectedKafkaClient.connect, h1]
  · rcases env with ⟨co, ro⟩
    cases co <;> cases ro <;> simp [DisconnectedKafkaClient.connect]

/-- C8 (witness): the amended theorem at concrete environments. -/
theorem c8_witness :
    DisconnectedKafkaClient.connect ⟨true, true⟩ = ⟨ConnectResult.handle, 1, 1⟩ :=
  c8_connect_spec.1 ⟨true, true⟩ rfl rfl

/-- C9: `assign_tag` returns the current counter value, advances the counter
by one (wrapping `i32` arithmetic, so plain `+ 1` before wraparound), inserts
the returned id into the in-flight set, stamps it into the request header in
place while leaving every other header field and the request body unchanged;
successive calls return strictly increasing ids before wraparound, and `N`
calls from the fresh store leave exactly `N` distinct in-flight ids. -/
theorem c9_assign_tag_spec :
    (∀ (s : CorrelationStore) (r : RequestHeader × RequestKind),
        (s.assign_tag r).1 = s.id_gen ∧
        (s.assign_tag r).2.1.id_gen = wrap32 (s.id_gen + 1) ∧
        (s.assign_tag r).2.1.correlation_ids =
          s.correlation_ids.insert s.id_gen ∧
        (s.assign_tag r).1 ∈ (s.assign_tag r).2.1.correlation_ids ∧
        (s.assign_tag r).2.2.1.correlation_id = (s.assign_tag r).1 ∧
        (s.assign_tag r).2.2.1.request_api_key = r.1.request_api_key ∧
        (s.assign_tag r).2.2.1.request_api_version = r.1.request_api_version ∧
        (s.assign_tag r).2.2.1.client_id = r.1.client_id ∧
        (s.assign_tag r).2.2.2 = r.2) ∧
    (∀ (s : CorrelationStore) (r r2 : RequestHeader × RequestKind),
        -(2 ^ 31) ≤ s.id_gen → s.id_gen < 2 ^ 31 - 1 →
        ((s.assign_tag r).2.1.assign_tag r2).1 = s.id_gen + 1 ∧
        (s.assign_tag r).1 < ((s.assign_tag r).2.1.assign_tag r2).1) ∧
    (∀ n : Nat, n ≤ 2 ^ 31 →
        (assignIter n).correlation_ids.length = n ∧
        (assignIter n).correlation_ids.Nodup) := by
  refine ⟨fun s r => ⟨rfl, rfl, rfl, ?_, rfl, rfl, rfl, rfl, rfl⟩,
    fun s r r2 h1 h2 => ?_, fun n hn => ?_⟩
  · exact List.mem_insert_self _ _
  · have hw : wrap32 (s.id_gen + 1) = s.id_gen + 1 :=
      wrap32_eq_self _ (by omega) (by omega)
    refine ⟨hw, ?_⟩
    show s.id_gen < wrap32 (s.id_gen + 1)
    rw [hw]
    omega
  · obtain ⟨hids, -⟩ := assignIter_closed_form n hn
    rw [hids]
    constructor
    · rw [List.length_map, List.length_reverse, List.length_range]
    · exact List.Nodup.map (fun a b h => Int.ofNat.inj h)
        (List.nodup_reverse.mpr (List.nodup_range n))

/-- C9 (witness): the specification at concrete inputs — the first two
assigned ids from the fresh store and the in-flight count after three
calls. -/
theorem c9_witness :
    (CorrelationStore.new.assign_tag dummyRequest).1 = 0 ∧
    ((CorrelationStore.new.assign_tag dummyRequest).2.1.assign_tag
        dummyRequest).1 = 0 + 1 ∧
    (assignIter 3).correlation_ids.length = 3 := by
  refine ⟨(c9_assign_tag_spec.1 CorrelationStore.new dummyRequest).1, ?_, ?_⟩
  · have h := (c9_assign_tag_spec.2.1 CorrelationStore.new dummyRequest
      dummyRequest (by decide) (by decide)).1
    simpa using h
  · exact (c9_assign_tag_spec.2.2 3 (by norm_num)).1

/-- C10: `finish_tag` unconditionally returns the decoded response header's
correlation id, removes it from the in-flight set while leaving the counter
alone; removing an id that was never assigned (or already finished) is a
no-op on the store, and every other in-flight id's membership is
untouched. -/
theorem c10_finish_tag_spec :
    (∀ (s : CorrelationStore) (resp : ResponseHeader × ResponseKind),
        (s.finish_tag resp).1 = resp.1.correlation_id ∧
        (s.finish_tag resp).2.correlation_ids =
          s.correlation_ids.erase resp.1.correlation_id ∧
        (s.finish_tag resp).2.id_gen = s.id_gen) ∧
    (∀ (s : CorrelationStore) (resp : ResponseHeader × ResponseKind),
        resp.1.correlation_id ∉ s.correlation_ids → (s.finish_tag resp).2 = s) ∧
    (∀ (s : CorrelationStore) (resp : ResponseHeader × ResponseKind) (j : Int),
        j ≠ resp.1.correlation_id →
        (j ∈ (s.finish_tag resp).2.correlation_ids ↔ j ∈ s.correlation_ids)) := by
  refine ⟨fun s resp => ⟨rfl, rfl, rfl⟩, fun s resp h => ?_, fun s resp j hj => ?_⟩
  · show ({ s with correlation_ids :=
      s.correlation_ids.erase resp.1.correlation_id }) = s
    rw [List.erase_of_not_mem h]
  · exact List.mem_erase_of_ne hj

/-- C10 (witness): finishing a response whose id 7 was never assigned leaves
the concrete store untouched and returns 7. -/
theorem c10_witness :
    (7 : Int) ∉ ([5] : List Int) ∧
    ((CorrelationStore.mk [5] 9).finish_tag
        (⟨7⟩, .MetadataResponse ⟨0, []⟩)).2 = CorrelationStore.mk [5] 9 ∧
    ((CorrelationStore.mk [5] 9).finish_tag
        (⟨7⟩, .MetadataResponse ⟨0, []⟩)).1 = 7 :=
  ⟨by decide,
   c10_finish_tag_spec.2.1 (CorrelationStore.mk [5] 9)
     (⟨7⟩, .MetadataResponse ⟨0, []⟩) (by decide),
   (c10_finish_tag_spec.1 (CorrelationStore.mk [5] 9)
     (⟨7⟩, .MetadataResponse ⟨0, []⟩)).1⟩

/-- C5: for every request of a supported variant with a header carrying that
variant's API key, after assigning a tag and encoding the tagged request,
decoding any well-formed response frame carrying the assigned correlation id
yields an item whose header holds that id, and finishing the tag on it
returns exactly the id `assign_tag` assigned. -/
theorem c5_round_trip (store : CorrelationStore) (c : KafkaClientCodec)
    (request : RequestHeader × RequestKind) (payload body rest dst : List Nat)
    (header : ResponseHeader)
    (hsup : request.2.isSupported = true)
    (hkey : request.1.request_api_key = request.2.apiKeyInt)
    (hstate : c.length_codec.decodeState = none)
    (hmax : payload.length ≤ c.length_codec.max_frame_length)
    (h32 : payload.length < 2 ^ 32)
    (hhdr : ResponseHeader.decode 1 payload = some (header, body))
    (hcid : header.correlation_id = (store.assign_tag request).1) :
    ∃ response : ResponseKind,
      ((c.encode (store.assign_tag request).2.2 dst).2.1.decode
          (encU32 payload.length ++ (payload ++ rest))).1 =
        DecodeResult.item header response ∧
      ((store.assign_tag request).2.1.finish_tag (header, response)).1 =
        (store.assign_tag request).1 := by
  obtain ⟨api_key, hk, response, hresp⟩ :
      ∃ k, ApiKey.tryFrom ((store.assign_tag request).2.2.1).request_api_key =
          some k ∧
        ∃ resp, KafkaClientCodec.decode_response body k
            ((store.assign_tag request).2.2.1).request_api_version = .ok resp := by
    obtain ⟨rh, rk⟩ := request
    have hk1 : ((store.assign_tag (rh, rk)).2.2.1).request_api_key =
        rh.request_api_key := rfl
    cases rk with
    | MetadataRequest q =>
      rw [hk1, hkey]
      exact ⟨.MetadataKey, rfl, ⟨.MetadataResponse ⟨_, body⟩, rfl⟩⟩
    | ApiVersionsRequest q =>
      rw [hk1, hkey]
      exact ⟨.ApiVersionsKey, rfl, ⟨.ApiVersionsResponse ⟨_, body⟩, rfl⟩⟩
    | LeaderAndIsrRequest q =>
      rw [hk1, hkey]
      exact ⟨.LeaderAndIsrKey, rfl, ⟨.LeaderAndIsrResponse ⟨_, body⟩, rfl⟩⟩
    | CreateTopicsRequest q =>
      rw [hk1, hkey]
      exact ⟨.CreateTopicsKey, rfl, ⟨.CreateTopicsResponse ⟨_, body⟩, rfl⟩⟩
    | ProduceRequest q => simp [RequestKind.isSupported] at hsup
    | FetchRequest q => simp [RequestKind.isSupported] at hsup
  have hc1 := KafkaClientCodec.encode_state c (store.assign_tag request).2.2 dst
  have hstate1 :
      ((c.encode (store.assign_tag request).2.2 dst).2.1).length_codec.decodeState =
        none := by rw [hc1]; exact hstate
  have hmax1 : payload.length ≤
      ((c.encode (store.assign_tag request).2.2 dst).2.1).length_codec.max_frame_length := by
    rw [hc1]; exact hmax
  have hlc := LengthDelimitedCodec.decode_full
    ((c.encode (store.assign_tag request).2.2 dst).2.1).length_codec
    payload rest hstate1 hmax1 h32
  have hfound :
      ((c.encode (store.assign_tag request).2.2 dst).2.1).requests.lookup
        header.correlation_id = some (store.assign_tag request).2.2.1 := by
    rw [hc1, hcid]
    exact Table.lookup_insert_self c.requests _ _
  have hfull := KafkaClientCodec.decode_found
    ((c.encode (store.assign_tag request).2.2 dst).2.1)
    (encU32 payload.length ++ (payload ++ rest)) rest payload body
    ((c.encode (store.assign_tag request).2.2 dst).2.1).length_codec
    header (store.assign_tag request).2.2.1 api_key response
    hlc hhdr hfound hk hresp
  refine ⟨response, ?_, ?_⟩
  · rw [hfull]
  · show header.correlation_id = (store.assign_tag request).1
    exact hcid

/-- C5 (witness): the round trip at a concrete ApiVersions v3 request — id 0
is assigned, encoded, found by decode on a well-formed frame carrying id 0,
and returned by `finish_tag`. -/
theorem c5_witness :
    ∃ response : ResponseKind,
      ((KafkaClientCodec.new.encode
          (CorrelationStore.new.assign_tag
            ((⟨18, 3, 0, none⟩ : RequestHeader),
             RequestKind.ApiVersionsRequest ⟨[]⟩)).2.2 []).2.1.decode
          [0, 0, 0, 5, 0, 0, 0, 0, 0]).1 =
        DecodeResult.item ⟨0⟩ response ∧
      ((CorrelationStore.new.assign_tag
          ((⟨18, 3, 0, none⟩ : RequestHeader),
           RequestKind.ApiVersionsRequest ⟨[]⟩)).2.1.finish_tag
          (⟨0⟩, response)).1 =
        (CorrelationStore.new.assign_tag
          ((⟨18, 3, 0, none⟩ : RequestHeader),
           RequestKind.ApiVersionsRequest ⟨[]⟩)).1 := by
  have h := c5_round_trip CorrelationStore.new KafkaClientCodec.new
    (⟨18, 3, 0, none⟩, .ApiVersionsRequest ⟨[]⟩) [0, 0, 0, 0, 0] [] [] [] ⟨0⟩
    rfl rfl rfl (by decide) (by decide) (by decide) rfl
  exact h

/-- C6 (counterexample): a buffer holding only the 4-byte length prefix of a
frame declaring a 1-byte body (so fewer bytes than the frame total of 5):
`decode` returns no value but consumes the four prefix bytes into the length
codec's state — not zero bytes. -/
theorem c6_counterexample :
    (KafkaClientCodec.new.decode [0, 0, 0, 1]).1 = DecodeResult.needMore ∧
    (KafkaClientCodec.new.decode [0, 0, 0, 1]).2.2 = [] ∧
    (KafkaClientCodec.new.decode [0, 0, 0, 1]).2.1.length_codec.decodeState =
      some 1 := by decide

/-- C6 (amended): with the length codec in its initial (head) state, `decode`
on fewer than four buffered bytes returns no value and consumes nothing; once
the four prefix bytes are present but the body is still short, it returns no
value, consumes exactly the four prefix bytes — remembering the declared
length in codec state, consuming no payload byte — and on a buffer holding a
complete frame it consumes exactly prefix plus declared length and produces
exactly one outcome (never a request for more bytes), returning the codec to
the head state; symmetric statements hold for resuming from the recorded
state, so repeated calls on a growing buffer never consume payload bytes
early and never lose bytes. -/
theorem c6_partial_frame_handling :
    (∀ (c : KafkaClientCodec) (src : List Nat),
        c.length_codec.decodeState = none → src.length < 4 →
        c.decode src = (DecodeResult.needMore, c, src)) ∧
    (∀ (c : KafkaClientCodec) (n : Nat) (tail : List Nat),
        c.length_codec.decodeState = none →
        n ≤ c.length_codec.max_frame_length → n < 2 ^ 32 → tail.length < n →
        c.decode (encU32 n ++ tail) =
          (DecodeResult.needMore,
           { c with length_codec :=
              { c.length_codec with decodeState := some n } }, tail)) ∧
    (∀ (c : KafkaClientCodec) (payload rest : List Nat),
        c.length_codec.decodeState = none →
        payload.length ≤ c.length_codec.max_frame_length →
        payload.length < 2 ^ 32 →
        (c.decode (encU32 payload.length ++ (payload ++ rest))).1 ≠
            DecodeResult.needMore ∧
          (c.decode (encU32 payload.length ++ (payload ++ rest))).2.2 = rest ∧
          (c.decode
              (encU32 payload.length ++ (payload ++ rest))).2.1.length_codec =
            c.length_codec) ∧
    (∀ (c : KafkaClientCodec) (n : Nat) (src : List Nat),
        c.length_codec.decodeState = some n → src.length < n →
        c.decode src = (DecodeResult.needMore, c, src)) ∧
    (∀ (c : KafkaClientCodec) (n : Nat) (payload rest : List Nat),
        c.length_codec.decodeState = some n → payload.length = n →
        (c.decode (payload ++ rest)).1 ≠ DecodeResult.needMore ∧
          (c.decode (payload ++ rest)).2.2 = rest ∧
          (c.decode (payload ++ rest)).2.1.length_codec =
            { c.length_codec with decodeState := none }) := by
  refine ⟨?_, ?_, ?_, ?_, ?_⟩
  · intro c src h0 h4
    exact KafkaClientCodec.decode_of_lc_none c src src c.length_codec
      (LengthDelimitedCodec.decode_short c.length_codec src h0 h4)
  · intro c n tail h0 hm h32 hs
    exact KafkaClientCodec.decode_of_lc_none c (encU32 n ++ tail) tail
      { c.length_codec with decodeState := some n }
      (LengthDelimitedCodec.decode_head_partial c.length_codec n tail h0 hm h32 hs)
  · intro c payload rest h0 hm h32
    exact KafkaClientCodec.decode_consumed_frame c
      (LengthDelimitedCodec.decode_full c.length_codec payload rest h0 hm h32)
  · intro c n src hst hs
    exact KafkaClientCodec.decode_of_lc_none c src src c.length_codec
      (LengthDelimitedCodec.decode_data_short c.length_codec n src hst hs)
  · intro c n payload rest hst hlen
    exact KafkaClientCodec.decode_consumed_frame c
      (LengthDelimitedCodec.decode_data_full c.length_codec n payload rest hst hlen)

/-- C6 (witness): the amended theorem at concrete buffers — two buffered
bytes consume nothing; the bare prefix `[0, 0, 0, 1]` consumes exactly the
prefix and records the declared length 1. -/
theorem c6_witness :
    KafkaClientCodec.new.decode [0, 0] =
      (DecodeResult.needMore, KafkaClientCodec.new, [0, 0]) ∧
    KafkaClientCodec.new.decode [0, 0, 0, 1] =
      (DecodeResult.needMore,
       { KafkaClientCodec.new with length_codec :=
          { KafkaClientCodec.new.length_codec with decodeState := some 1 } },
       []) := by
  constructor
  · exact c6_partial_frame_handling.1 KafkaClientCodec.new [0, 0] rfl (by decide)
  · have h := c6_partial_frame_handling.2.1 KafkaClientCodec.new 1 [] rfl
      (by decide) (by decide) (by decide)
    exact h
